import Mathlib

/-!
# Verification of the Item Service CRUD handlers

Shallow embedding of the two source files of the repository:

* `handler.js` (the unnamed CRUD module): `res`, `randomId`, `createItem`,
  `getItem`, `updateItem`, `deleteItem`, `listItems`;
* `src/api/handler.js`: the connectivity-check routine `hello`.

JSON values are modelled by the inductive `Json`; the DynamoDB table is an
association list from the string primary key `pk` to an attribute map.
Nondeterministic inputs of a handler invocation are passed explicitly:

* the generated identifier (`randomId()`) is the `genId` argument;
* each `new Date().toISOString()` reading is its own string argument, in
  the order the source takes the readings (`createItem` reads the clock
  twice, `updateItem` once);
* store faults other than the data-dependent conditional-check failure
  (throughput limits, misconfiguration, ...) are injected through an
  `Option DdbError` argument: `some e` means the store call throws `e`.

JavaScript semantics used by the handlers (truthiness, `typeof`,
`Object.keys`, property access, object-literal spread where the last
assignment to a key wins) are embedded by `jsTruthy`, `jsTypeof`,
`jsKeys`, `getProp` and `aset`/`objAssign` respectively.
-/

/-- A parsed JSON value (`JSON.parse` result). Numbers are modelled as
integers; none of the handlers computes with numbers. -/
inductive Json where
  | null : Json
  | bool : Bool → Json
  | num : Int → Json
  | str : String → Json
  | arr : List Json → Json
  | obj : List (String × Json) → Json

/-- First-match lookup in a string-keyed association list (JS property
read on an object, where keys are unique by construction). -/
def alookup {β : Type} : List (String × β) → String → Option β
  | [], _ => none
  | (k', v) :: rest, k => if k' = k then some v else alookup rest k

/-- JS object-key assignment: overwriting an existing key keeps its
position, a fresh key is appended (JS insertion order). -/
def aset {β : Type} : List (String × β) → String → β → List (String × β)
  | [], k, v => [(k, v)]
  | (k', v') :: rest, k, v =>
    if k' = k then (k', v) :: rest else (k', v') :: aset rest k v

/-- Left-to-right sequence of JS assignments (`Object.assign` / the tail
of a spread): later entries overwrite earlier ones. -/
def objAssign {β : Type} (l : List (String × β)) (assigns : List (String × β)) :
    List (String × β) :=
  assigns.foldl (fun acc p => aset acc p.1 p.2) l

/-- JS truthiness of a parsed JSON value (`!body`, `!body.name`). -/
def jsTruthy : Json → Bool
  | .null => false
  | .bool b => b
  | .num n => n != 0
  | .str s => s != ""
  | .arr _ => true
  | .obj _ => true

/-- JS `typeof` restricted to `JSON.parse` results: `null`, arrays and
objects all report `"object"`. -/
def jsTypeof : Json → String
  | .null => "object"
  | .bool _ => "boolean"
  | .num _ => "number"
  | .str _ => "string"
  | .arr _ => "object"
  | .obj _ => "object"

/-- JS property access `body[k]`; `none` plays the role of `undefined`.
On arrays, a string key addresses the element whose canonical decimal
index string it is (the only array keys the handlers ever use are the
`Object.keys` index strings themselves). -/
def getProp : Json → String → Option Json
  | .obj kvs, k => alookup kvs k
  | .arr xs, k =>
    ((List.range xs.length).find? (fun i => toString i == k)).bind
      (fun i => xs.get? i)
  | _, _ => none

/-- Truthiness of a possibly-`undefined` property (`!body.name`). -/
def jsTruthyOpt : Option Json → Bool
  | none => false
  | some v => jsTruthy v

/-- JS `Object.keys`: own enumerable keys of an object in insertion
order; for an array, the decimal index strings of its elements. -/
def jsKeys : Json → List String
  | .obj kvs => kvs.map Prod.fst
  | .arr xs => (List.range xs.length).map (fun i => toString i)
  | _ => []

/-- Own entries of a value as spread by `{...body}`; only objects and
arrays ever reach the spread in the handlers (the body check rules the
rest out). -/
def ownEntries : Json → List (String × Json)
  | .obj kvs => kvs
  | .arr xs => (xs.enum).map (fun iv => (toString iv.1, iv.2))
  | _ => []

/-- An item: DynamoDB attribute map of one record. -/
def Item : Type := List (String × Json)

/-- The table: association list from the `pk` string to the record. -/
def Store : Type := List (String × Item)

/-- An error thrown by the DynamoDB document client; the handlers read
`err.code` and `err.message`. -/
structure DdbError where
  code : String
  message : String
deriving DecidableEq

/-- The error DynamoDB throws when a `ConditionExpression` fails. -/
def condFailErr : DdbError :=
  ⟨"ConditionalCheckFailedException", "The conditional request failed"⟩

/-- A transport response `{ statusCode, headers, body }`; `headers` is
`none` when the returned object literal has no `headers` key (as in the
connectivity-check routine). The body is kept as the JSON value handed
to `JSON.stringify`. -/
structure Response where
  statusCode : Nat
  headers : Option (List (String × String))
  body : Json

/-- The fixed CORS header set of the `res` helper. -/
def corsHeaders : List (String × String) :=
  [("Content-Type", "application/json"),
   ("Access-Control-Allow-Origin", "*"),
   ("Access-Control-Allow-Headers", "Content-Type,Authorization"),
   ("Access-Control-Allow-Methods", "GET,POST,PUT,DELETE,OPTIONS")]

/-- `res(statusCode, data)`: uniform envelope with the CORS headers. -/
def res (statusCode : Nat) (data : Json) : Response :=
  ⟨statusCode, some corsHeaders, data⟩

/-- The uniform error body `{ ok: false, error: msg }`. -/
def errBody (msg : String) : Json :=
  Json.obj [("ok", Json.bool false), ("error", Json.str msg)]

/-- `{ ok: true, item }` success body. -/
def okItemBody (item : Item) : Json :=
  Json.obj [("ok", Json.bool true), ("item", Json.obj item)]

/-- The item literal of `createItem` (source lines 42–48):
`{ pk: randomId(), name: body.name, ...body, createdAt: r1, updatedAt: r2 }`
where `r1` and `r2` are the two successive clock readings. Note that the
spread of `body` comes after the `pk` assignment but before the two
timestamp assignments. -/
def createItemRecord (genId now1 now2 : String) (body : Json) : Item :=
  let base := aset (aset [] "pk" (Json.str genId)) "name"
    ((getProp body "name").getD Json.null)
  let withBody := objAssign base (ownEntries body)
  aset (aset withBody "createdAt" (Json.str now1)) "updatedAt" (Json.str now2)

/-- `ddb.put` with `ConditionExpression: 'attribute_not_exists(pk)'`:
fails with the conditional-check error when a record with the item's key
already exists. A `fault` models any other error thrown by the call. -/
def ddbPut (fault : Option DdbError) (store : Store) (item : Item) :
    Except DdbError Store :=
  match fault with
  | some e => .error e
  | none =>
    match alookup item "pk" with
    | some (Json.str pk) =>
      if (alookup store pk).isSome then .error condFailErr
      else .ok (aset store pk item)
    | _ => .error ⟨"ValidationException", "One or more parameter values were invalid"⟩

/-- `createItem`: POST /items. `eventBody` is the parsed JSON of
`event.body` when a body string is present (`none` mirrors a missing
body, which the source replaces by `{}`). -/
def createItem (genId now1 now2 : String) (eventBody : Option Json)
    (fault : Option DdbError) (store : Store) : Response × Store :=
  let body := eventBody.getD (Json.obj [])
  if !jsTruthy body || jsTypeof body != "object" then
    (res 400 (errBody "Invalid JSON body"), store)
  else if !jsTruthyOpt (getProp body "name") then
    (res 400 (errBody "Field \"name\" is required"), store)
  else
    let item := createItemRecord genId now1 now2 body
    match ddbPut fault store item with
    | .ok store2 => (res 201 (okItemBody item), store2)
    | .error e => (res 500 (errBody e.message), store)

/-- `getItem`: GET /items/{id}. `pathId` is `event.pathParameters?.id`;
both an absent and an empty identifier are falsy in the source check. -/
def getItem (pathId : Option String) (fault : Option DdbError)
    (store : Store) : Response × Store :=
  match pathId with
  | none => (res 400 (errBody "Missing id"), store)
  | some id =>
    if id = "" then (res 400 (errBody "Missing id"), store)
    else
      match fault with
      | some e => (res 500 (errBody e.message), store)
      | none =>
        match alookup store id with
        | none => (res 404 (errBody "Not found"), store)
        | some item => (res 200 (okItemBody item), store)

/-- The three accumulators of the `allowed.forEach((k, i) => ...)` loop
of `updateItem`: `names[#ki] = k`, `values[:vi] = body[k]`, and the
`#ki = :vi` clause of the update expression. The clause is kept as the
placeholder pair; `updateItem` renders it to the exact source string. -/
structure UpdParts where
  names : List (String × String)
  values : List (String × Json)
  setPairs : List (String × String)

/-- The `forEach` loop with its running index `i`. -/
def buildPartsFrom (body : Json) : Nat → List String → UpdParts
  | _, [] => ⟨[], [], []⟩
  | i, k :: rest =>
    let tl := buildPartsFrom body (i + 1) rest
    ⟨("#k" ++ toString i, k) :: tl.names,
     (":v" ++ toString i, (getProp body k).getD Json.null) :: tl.values,
     ("#k" ++ toString i, ":v" ++ toString i) :: tl.setPairs⟩

/-- The loop entered with index 0 over the allowed field list. -/
def buildParts (body : Json) (allowed : List String) : UpdParts :=
  buildPartsFrom body 0 allowed

/-- The updatable field set of `updateItem`:
`Object.keys(body).filter(k => !['pk', 'createdAt'].includes(k))`. -/
def allowedOf (body : Json) : List String :=
  (jsKeys body).filter (fun k => !(["pk", "createdAt"].contains k))

/-- The `UpdateExpression` string sent to the store:
`'SET ' + sets.join(', ')` where each clause is `` `#k${i} = :v${i}` ``
plus the final `'#updatedAt = :updatedNow'`. -/
def updateExpressionFor (body : Json) (allowed : List String) : String :=
  "SET " ++ String.intercalate ", "
    (((buildParts body allowed).setPairs ++ [("#updatedAt", ":updatedNow")]).map
      (fun p => p.1 ++ " = " ++ p.2))

/-- Resolution of one `#name = :value` clause through the two
placeholder maps, as DynamoDB interprets the update expression. -/
def resolvePair (names : List (String × String)) (values : List (String × Json))
    (p : String × String) : Option (String × Json) :=
  match alookup names p.1, alookup values p.2 with
  | some attr, some v => some (attr, v)
  | _, _ => none

/-- Resolution of every clause; `none` when a placeholder is dangling
(DynamoDB would reject the expression). -/
def resolveAll (names : List (String × String)) (values : List (String × Json)) :
    List (String × String) → Option (List (String × Json))
  | [] => some []
  | p :: rest =>
    match resolvePair names values p, resolveAll names values rest with
    | some a, some tl => some (a :: tl)
    | _, _ => none

/-- `ddb.update` with `ConditionExpression: 'attribute_exists(pk)'` and
`ReturnValues: 'ALL_NEW'`. The model interprets the structured clause
list; the rendered `updExpr` string is exactly its textual image (the
opaque-field-names theorem below ties the two together). -/
def ddbUpdate (fault : Option DdbError) (store : Store) (id : String)
    (updExpr : String) (names : List (String × String))
    (values : List (String × Json)) (setPairs : List (String × String)) :
    Except DdbError (Item × Store) :=
  match fault with
  | some e => .error e
  | none =>
    match resolveAll names values setPairs with
    | none => .error ⟨"ValidationException",
        "Invalid UpdateExpression: " ++ updExpr⟩
    | some assigns =>
      match alookup store id with
      | none => .error condFailErr
      | some item =>
        let newItem := objAssign item assigns
        .ok (newItem, aset store id newItem)

/-- `updateItem`: PUT /items/{id}. The single clock reading of the
invocation (`new Date().toISOString()` for `:updatedNow`) is `now`. -/
def updateItem (now : String) (pathId : Option String)
    (eventBody : Option Json) (fault : Option DdbError) (store : Store) :
    Response × Store :=
  match pathId with
  | none => (res 400 (errBody "Missing id"), store)
  | some id =>
    if id = "" then (res 400 (errBody "Missing id"), store)
    else
      let body := eventBody.getD (Json.obj [])
      if !jsTruthy body || jsTypeof body != "object" then
        (res 400 (errBody "Invalid JSON body"), store)
      else
        let allowed := allowedOf body
        if allowed.length = 0 then (res 400 (errBody "No updatable fields"), store)
        else
          let parts := buildParts body allowed
          let names := parts.names ++ [("#updatedAt", "updatedAt")]
          let values := parts.values ++ [(":updatedNow", Json.str now)]
          let setPairs := parts.setPairs ++ [("#updatedAt", ":updatedNow")]
          let updExpr := updateExpressionFor body allowed
          match ddbUpdate fault store id updExpr names values setPairs with
          | .ok (newItem, store2) => (res 200 (okItemBody newItem), store2)
          | .error e =>
            (res (if e.code = "ConditionalCheckFailedException" then 404 else 500)
              (errBody e.message), store)

/-- `ddb.delete` with `ConditionExpression: 'attribute_exists(pk)'`. -/
def ddbDelete (fault : Option DdbError) (store : Store) (id : String) :
    Except DdbError Store :=
  match fault with
  | some e => .error e
  | none =>
    if (alookup store id).isSome then .ok (store.filter (fun p => p.1 != id))
    else .error condFailErr

/-- `deleteItem`: DELETE /items/{id}. -/
def deleteItem (pathId : Option String) (fault : Option DdbError)
    (store : Store) : Response × Store :=
  match pathId with
  | none => (res 400 (errBody "Missing id"), store)
  | some id =>
    if id = "" then (res 400 (errBody "Missing id"), store)
    else
      match ddbDelete fault store id with
      | .ok store2 => (res 204 (Json.obj [("ok", Json.bool true)]), store2)
      | .error e =>
        (res (if e.code = "ConditionalCheckFailedException" then 404 else 500)
          (errBody e.message), store)

/-- `listItems`: GET /items, `ddb.scan` with `Limit: 100`. -/
def listItems (fault : Option DdbError) (store : Store) : Response × Store :=
  match fault with
  | some e => (res 500 (errBody e.message), store)
  | none =>
    let items := (store.take 100).map (fun p => Json.obj p.2)
    (res 200 (Json.obj [("ok", Json.bool true),
      ("count", Json.num items.length), ("items", Json.arr items)]), store)

/-- The connectivity-check routine `hello` of `src/api/handler.js`:
writes `{ pk: 'hello', ts: Date.now() }` with an unconditioned put and
returns a response literal that carries no `headers` key at all. -/
def hello (nowMs : Int) (fault : Option DdbError) (store : Store) :
    Response × Store :=
  let item : Item := [("pk", Json.str "hello"), ("ts", Json.num nowMs)]
  match fault with
  | some e => (⟨500, none, errBody e.message⟩, store)
  | none =>
    (⟨200, none, Json.obj [("ok", Json.bool true), ("saved", Json.obj item)]⟩,
      aset store "hello" item)

/-! ## Association-list lemmas -/

theorem alookup_aset_self {β : Type} (l : List (String × β)) (k : String) (v : β) :
    alookup (aset l k v) k = some v := by
  induction l with
  | nil => simp [aset, alookup]
  | cons p rest ih =>
    obtain ⟨a, b⟩ := p
    by_cases h : a = k
    · simp [aset, alookup, h]
    · simp [aset, alookup, h, ih]

theorem alookup_aset_ne {β : Type} (l : List (String × β)) {k k' : String}
    (h : k' ≠ k) (v : β) : alookup (aset l k' v) k = alookup l k := by
  induction l with
  | nil => simp [aset, alookup, h]
  | cons p rest ih =>
    obtain ⟨a, b⟩ := p
    have hks : ¬ k = k' := fun hc => h hc.symm
    by_cases ha : a = k'
    · have hak : ¬ a = k := fun hc => h (ha.symm.trans hc)
      simp [aset, alookup, ha, hak, h]
    · by_cases hk : a = k <;> simp [aset, alookup, ha, hk, hks, h, ih]

theorem alookup_none_of_notmem {β : Type} {l : List (String × β)} {k : String}
    (h : k ∉ l.map Prod.fst) : alookup l k = none := by
  induction l with
  | nil => rfl
  | cons p rest ih =>
    obtain ⟨a, b⟩ := p
    simp only [List.map_cons, List.mem_cons] at h
    push_neg at h
    have hak : ¬ a = k := fun hc => h.1 hc.symm
    simp [alookup, hak, ih h.2]

theorem alookup_mem_snd {β : Type} {l : List (String × β)} {k : String} {v : β}
    (h : alookup l k = some v) : v ∈ l.map Prod.snd := by
  induction l with
  | nil => simp [alookup] at h
  | cons p rest ih =>
    obtain ⟨a, b⟩ := p
    by_cases ha : a = k
    · simp only [alookup, if_pos ha, Option.some.injEq] at h
      simp [h]
    · simp only [alookup, if_neg ha] at h
      simp [ih h]

theorem alookup_isSome_of_mem {β : Type} {l : List (String × β)} {k : String}
    (h : k ∈ l.map Prod.fst) : (alookup l k).isSome = true := by
  induction l with
  | nil => simp at h
  | cons p rest ih =>
    obtain ⟨a, b⟩ := p
    by_cases ha : a = k
    · simp [alookup, ha]
    · simp only [List.map_cons, List.mem_cons] at h
      simp only [alookup, if_neg ha]
      exact ih (h.resolve_left (fun he => ha he.symm))

theorem alookup_filter {β : Type} (l : List (String × β)) (p : String → Bool)
    (k : String) (hk : p k = true) :
    alookup (l.filter (fun q => p q.1)) k = alookup l k := by
  induction l with
  | nil => rfl
  | cons q rest ih =>
    obtain ⟨a, b⟩ := q
    by_cases hq : p a = true
    · by_cases he : a = k <;> simp [List.filter_cons, hq, hk, alookup, he, ih]
    · have he : ¬ a = k := fun hc => hq (hc ▸ hk)
      simp [List.filter_cons, hq, alookup, he, ih]

theorem map_fst_filter {β : Type} (l : List (String × β)) (p : String → Bool) :
    ((l.filter (fun q => p q.1)).map Prod.fst) = (l.map Prod.fst).filter p := by
  induction l with
  | nil => rfl
  | cons q rest ih =>
    obtain ⟨a, b⟩ := q
    by_cases hq : p a = true <;> simp [List.filter_cons, hq, ih]

/-! ## Lemmas about sequences of JS assignments -/

theorem objAssign_nil {β : Type} (l : List (String × β)) : objAssign l [] = l := rfl

theorem objAssign_cons {β : Type} (l : List (String × β)) (p : String × β)
    (rest : List (String × β)) :
    objAssign l (p :: rest) = objAssign (aset l p.1 p.2) rest := rfl

/-- A key assigned by none of the entries keeps its previous binding. -/
theorem objAssign_alookup_of_forall_ne {β : Type} (assigns : List (String × β))
    (l : List (String × β)) (k : String) (h : ∀ p ∈ assigns, p.1 ≠ k) :
    alookup (objAssign l assigns) k = alookup l k := by
  induction assigns generalizing l with
  | nil => rfl
  | cons p rest ih =>
    rw [objAssign_cons, ih _ (fun q hq => h q (List.mem_cons_of_mem p hq)),
      alookup_aset_ne _ (h p (List.mem_cons_self p rest)) _]

/-- With pairwise-distinct keys (as `JSON.parse` guarantees), the result
of assigning all entries looks up to the entry's value when the key is
among them and to the base binding otherwise. -/
theorem objAssign_alookup_nodup {β : Type} (kvs : List (String × β))
    (base : List (String × β)) (k : String)
    (hnd : (kvs.map Prod.fst).Nodup) :
    alookup (objAssign base kvs) k
      = match alookup kvs k with
        | some v => some v
        | none => alookup base k := by
  induction kvs generalizing base with
  | nil => rfl
  | cons p rest ih =>
    obtain ⟨a, b⟩ := p
    simp only [List.map_cons, List.nodup_cons] at hnd
    rw [objAssign_cons]
    by_cases he : a = k
    · have hnone : alookup rest k = none :=
        alookup_none_of_notmem (fun hmem => hnd.1 (he ▸ hmem))
      rw [ih _ hnd.2]
      subst he
      simp [alookup, hnone, alookup_aset_self]
    · rw [ih _ hnd.2, alookup_aset_ne _ he _]
      simp [alookup, he]

/-! ## The shape of the dynamically built update expression -/

theorem buildPartsFrom_names_snd (body : Json) (i : Nat) (l : List String) :
    (buildPartsFrom body i l).names.map Prod.snd = l := by
  induction l generalizing i with
  | nil => rfl
  | cons k rest ih => simp [buildPartsFrom, ih]

theorem buildPartsFrom_names_fst (body : Json) (i : Nat) (l : List String) :
    (buildPartsFrom body i l).names.map Prod.fst
      = (List.range' i l.length).map (fun j => "#k" ++ toString j) := by
  induction l generalizing i with
  | nil => rfl
  | cons k rest ih => simp [buildPartsFrom, List.range', ih]

theorem buildPartsFrom_values_fst (body : Json) (i : Nat) (l : List String) :
    (buildPartsFrom body i l).values.map Prod.fst
      = (List.range' i l.length).map (fun j => ":v" ++ toString j) := by
  induction l generalizing i with
  | nil => rfl
  | cons k rest ih => simp [buildPartsFrom, List.range', ih]

theorem buildPartsFrom_setPairs (body : Json) (i : Nat) (l : List String) :
    (buildPartsFrom body i l).setPairs
      = (List.range' i l.length).map (fun j => ("#k" ++ toString j, ":v" ++ toString j)) := by
  induction l generalizing i with
  | nil => rfl
  | cons k rest ih => simp [buildPartsFrom, List.range', ih]

/-- The loop reads the body only through `body[k]` at the listed keys. -/
theorem buildPartsFrom_congr (body body' : Json) (i : Nat) (l : List String)
    (h : ∀ k ∈ l, getProp body k = getProp body' k) :
    buildPartsFrom body i l = buildPartsFrom body' i l := by
  induction l generalizing i with
  | nil => rfl
  | cons k rest ih =>
    simp only [buildPartsFrom]
    rw [h k (List.mem_cons_self k rest),
      ih (i + 1) (fun q hq => h q (List.mem_cons_of_mem k hq))]

/-! ## Resolution of the placeholder maps -/

theorem resolveAll_isSome_of (names : List (String × String))
    (values : List (String × Json)) (l : List (String × String))
    (h : ∀ p ∈ l, (alookup names p.1).isSome = true ∧ (alookup values p.2).isSome = true) :
    ∃ out, resolveAll names values l = some out := by
  induction l with
  | nil => exact ⟨[], rfl⟩
  | cons p rest ih =>
    obtain ⟨out, hout⟩ := ih (fun q hq => h q (List.mem_cons_of_mem p hq))
    obtain ⟨h1, h2⟩ := h p (List.mem_cons_self p rest)
    obtain ⟨attr, hattr⟩ := Option.isSome_iff_exists.mp h1
    obtain ⟨v, hv⟩ := Option.isSome_iff_exists.mp h2
    exact ⟨(attr, v) :: out, by simp [resolveAll, resolvePair, hattr, hv, hout]⟩

/-- Every attribute name a resolved clause assigns comes from the values
of the `ExpressionAttributeNames` map. -/
theorem resolveAll_mem_fst {names : List (String × String)}
    {values : List (String × Json)} {l : List (String × String)}
    {out : List (String × Json)} (h : resolveAll names values l = some out) :
    ∀ a ∈ out, a.1 ∈ names.map Prod.snd := by
  induction l generalizing out with
  | nil =>
    simp only [resolveAll, Option.some.injEq] at h
    subst h; intro a ha; simp at ha
  | cons p rest ih =>
    simp only [resolveAll] at h
    cases hp : resolvePair names values p with
    | none => rw [hp] at h; exact absurd h (by simp)
    | some a0 =>
      rw [hp] at h
      cases hr : resolveAll names values rest with
      | none => rw [hr] at h; exact absurd h (by simp)
      | some tl =>
        rw [hr] at h
        simp only [Option.some.injEq] at h
        subst h
        intro a ha
        rcases List.mem_cons.mp ha with he | hm
        · subst he
          simp only [resolvePair] at hp
          cases hn : alookup names p.1 with
          | none => rw [hn] at hp; exact absurd hp (by simp)
          | some attr =>
            cases hv : alookup values p.2 with
            | none => rw [hn, hv] at hp; exact absurd hp (by simp)
            | some v =>
              rw [hn, hv] at hp
              simp only [Option.some.injEq] at hp
              subst hp
              exact alookup_mem_snd hn
        · exact ih hr a hm

/-! ## The created record -/

theorem createItemRecord_updatedAt (genId now1 now2 : String) (body : Json) :
    alookup (createItemRecord genId now1 now2 body) "updatedAt"
      = some (Json.str now2) := by
  unfold createItemRecord
  exact alookup_aset_self _ _ _

theorem createItemRecord_createdAt (genId now1 now2 : String) (body : Json) :
    alookup (createItemRecord genId now1 now2 body) "createdAt"
      = some (Json.str now1) := by
  unfold createItemRecord
  rw [alookup_aset_ne _ (by decide) _]
  exact alookup_aset_self _ _ _

theorem createItemRecord_pk (genId now1 now2 : String)
    (kvs : List (String × Json)) (hnd : (kvs.map Prod.fst).Nodup) :
    alookup (createItemRecord genId now1 now2 (Json.obj kvs)) "pk"
      = some ((alookup kvs "pk").getD (Json.str genId)) := by
  unfold createItemRecord
  rw [alookup_aset_ne _ (by decide) _, alookup_aset_ne _ (by decide) _,
    show ownEntries (Json.obj kvs) = kvs from rfl,
    objAssign_alookup_nodup kvs _ _ hnd]
  cases hpk : alookup kvs "pk" with
  | some v => simp
  | none =>
    simp only [Option.getD_none]
    rw [alookup_aset_ne _ (by decide) _]
    exact alookup_aset_self _ _ _

/-! ## Claim C1 -/

/-- C1: the claim states that the stored and returned `pk` is always the
freshly generated server-side identifier, never a client-supplied value.
The code violates it: in the item literal the spread `...body` comes
after the `pk: randomId()` assignment, so a `pk` field in the request
body overwrites the generated identifier. At the failing input (body
`{name: "x", pk: "evil"}`, generated id `uuid-1`, both clock readings
`t0`, empty table) the 201 response and the stored record carry
`pk = "evil"` and the generated `uuid-1` appears nowhere in the table. -/
theorem C1_pk_override_divergence :
    createItem "uuid-1" "t0" "t0"
        (some (Json.obj [("name", Json.str "x"), ("pk", Json.str "evil")])) none []
      = (res 201 (okItemBody
          [("pk", Json.str "evil"), ("name", Json.str "x"),
           ("createdAt", Json.str "t0"), ("updatedAt", Json.str "t0")]),
         [("evil", [("pk", Json.str "evil"), ("name", Json.str "x"),
           ("createdAt", Json.str "t0"), ("updatedAt", Json.str "t0")])])
    ∧ alookup (createItem "uuid-1" "t0" "t0"
        (some (Json.obj [("name", Json.str "x"), ("pk", Json.str "evil")])) none []).2
        "uuid-1" = none :=
  ⟨rfl, rfl⟩

/-! ## Claim C5 -/

/-- C5 (counterexample): the claim says a create request with an absent
body fails `InvalidInput`. In the code `event.body ? JSON.parse(...) : {}`
substitutes the empty object for a missing body; the empty object passes
the non-null-object check and the request instead fails the `name`
check. At the concrete input (no body, empty table) the response is the
`MissingField` 400, not the `InvalidInput` 400. -/
theorem C5_counterexample :
    (createItem "g" "t1" "t2" none none []).1
        = res 400 (errBody "Field \"name\" is required")
    ∧ (createItem "g" "t1" "t2" none none []).1
        ≠ res 400 (errBody "Invalid JSON body") := by
  refine ⟨rfl, fun h => ?_⟩
  rw [show (createItem "g" "t1" "t2" none none []).1
      = res 400 (errBody "Field \"name\" is required") from rfl] at h
  simp [res, errBody] at h

/-- C5 (amended): a create request with an absent body is treated as the
empty object: it passes the non-null-object check and fails with the
`MissingField` 400 for the absent `name` (never touching the store),
while `InvalidInput` remains reserved for present bodies that parse to a
non-object or null. -/
theorem C5_missing_body_is_missing_field (genId now1 now2 : String)
    (fault : Option DdbError) (store : Store) :
    createItem genId now1 now2 none fault store
      = (res 400 (errBody "Field \"name\" is required"), store) := rfl

/-! ## Claim C7 -/

/-- C7 (counterexample): the claim says the two timestamp strings of a
created item are always equal. The code takes two separate
`new Date().toISOString()` readings, one per field; when the clock
advances between them the stored strings differ, as at this input where
the readings are `A` and `B`. -/
theorem C7_counterexample :
    (createItem "g" "A" "B" (some (Json.obj [("name", Json.str "w")])) none []).1
      = res 201 (okItemBody [("pk", Json.str "g"), ("name", Json.str "w"),
          ("createdAt", Json.str "A"), ("updatedAt", Json.str "B")])
    ∧ alookup [("pk", Json.str "g"), ("name", Json.str "w"),
          ("createdAt", Json.str "A"), ("updatedAt", Json.str "B")] "createdAt"
      ≠ alookup [("pk", Json.str "g"), ("name", Json.str "w"),
          ("createdAt", Json.str "A"), ("updatedAt", Json.str "B")] "updatedAt" := by
  refine ⟨rfl, fun h => ?_⟩
  rw [show alookup [("pk", Json.str "g"), ("name", Json.str "w"),
      ("createdAt", Json.str "A"), ("updatedAt", Json.str "B")] "createdAt"
      = some (Json.str "A") from rfl,
    show alookup [("pk", Json.str "g"), ("name", Json.str "w"),
      ("createdAt", Json.str "A"), ("updatedAt", Json.str "B")] "updatedAt"
      = some (Json.str "B") from rfl] at h
  simp at h

/-- C7 (amended): on every successful create both timestamps are set
from the current-time readings taken during the invocation, `createdAt`
from the first and `updatedAt` from the second; whenever the two
consecutive readings coincide (the code does not itself enforce this by
reusing one reading), the stored and returned item carries that common
time in both fields, so the two strings are equal. -/
theorem C7_timestamps_from_clock_readings (genId t : String) (body : Json)
    (fault : Option DdbError) (store : Store) (r : Response) (store2 : Store)
    (h : createItem genId t t (some body) fault store = (r, store2))
    (hs : r.statusCode = 201) :
    ∃ item : Item, r.body = okItemBody item
      ∧ alookup item "createdAt" = some (Json.str t)
      ∧ alookup item "updatedAt" = some (Json.str t) := by
  unfold createItem at h
  simp only [Option.getD_some] at h
  split at h
  · injection h with h1 _
    subst h1
    simp [res] at hs
  · split at h
    · injection h with h1 _
      subst h1
      simp [res] at hs
    · split at h
      · injection h with h1 _
        subst h1
        exact ⟨_, rfl, createItemRecord_createdAt genId t t body,
          createItemRecord_updatedAt genId t t body⟩
      · injection h with h1 _
        subst h1
        simp [res] at hs

/-- C7 (witness). -/
theorem C7_timestamps_witness :
    ∃ item : Item,
      (createItem "g" "T" "T" (some (Json.obj [("name", Json.str "w")])) none []).1.body
        = okItemBody item
      ∧ alookup item "createdAt" = some (Json.str "T")
      ∧ alookup item "updatedAt" = some (Json.str "T") :=
  C7_timestamps_from_clock_readings "g" "T" (Json.obj [("name", Json.str "w")])
    none [] _ _ rfl rfl

/-! ## Claim C9 -/

/-- C9: in the created record the two timestamp assignments come after
the body spread and therefore always hold the server-generated readings,
whatever `createdAt`/`updatedAt` the body supplied; the `pk` assignment
comes before the spread, so a body-supplied `pk` wins and the generated
identifier is used only when the body has no `pk` key. (`JSON.parse`
never produces duplicate keys, hence the pairwise-distinct hypothesis.) -/
theorem C9_server_timestamps_override_client (genId now1 now2 : String)
    (kvs : List (String × Json)) (hnd : (kvs.map Prod.fst).Nodup) :
    alookup (createItemRecord genId now1 now2 (Json.obj kvs)) "createdAt"
        = some (Json.str now1)
    ∧ alookup (createItemRecord genId now1 now2 (Json.obj kvs)) "updatedAt"
        = some (Json.str now2)
    ∧ alookup (createItemRecord genId now1 now2 (Json.obj kvs)) "pk"
        = some ((alookup kvs "pk").getD (Json.str genId)) :=
  ⟨createItemRecord_createdAt genId now1 now2 _,
   createItemRecord_updatedAt genId now1 now2 _,
   createItemRecord_pk genId now1 now2 kvs hnd⟩

/-- C9 (witness): with a body supplying `pk`, `createdAt` and
`updatedAt`, the record keeps the client `pk` but the server times. -/
theorem C9_server_timestamps_witness :
    alookup (createItemRecord "g" "t1" "t2"
        (Json.obj [("name", Json.str "w"), ("pk", Json.str "evil"),
          ("createdAt", Json.str "C"), ("updatedAt", Json.str "U")])) "createdAt"
        = some (Json.str "t1")
    ∧ alookup (createItemRecord "g" "t1" "t2"
        (Json.obj [("name", Json.str "w"), ("pk", Json.str "evil"),
          ("createdAt", Json.str "C"), ("updatedAt", Json.str "U")])) "updatedAt"
        = some (Json.str "t2")
    ∧ alookup (createItemRecord "g" "t1" "t2"
        (Json.obj [("name", Json.str "w"), ("pk", Json.str "evil"),
          ("createdAt", Json.str "C"), ("updatedAt", Json.str "U")])) "pk"
        = some (Json.str "evil") :=
  C9_server_timestamps_override_client "g" "t1" "t2"
    [("name", Json.str "w"), ("pk", Json.str "evil"),
     ("createdAt", Json.str "C"), ("updatedAt", Json.str "U")] (by decide)

/-! ## Claim C3 -/

/-- C3: an update whose body keys, after dropping `pk` and `createdAt`,
leave nothing (the empty body included, since an absent body becomes the
empty object) fails with the 400 `No updatable fields` response and
leaves the store untouched. The conclusion holds for every clock reading
`now` and every injected store fault, showing the emptiness check fires
before the implicit `updatedAt` clause is appended and before any store
call is issued. -/
theorem C3_no_updatable_fields_rejected (now id : String)
    (eventBody : Option Json) (fault : Option DdbError) (store : Store)
    (hid : id ≠ "")
    (htr : jsTruthy (eventBody.getD (Json.obj [])) = true)
    (hty : jsTypeof (eventBody.getD (Json.obj [])) = "object")
    (hempty : allowedOf (eventBody.getD (Json.obj [])) = []) :
    updateItem now (some id) eventBody fault store
      = (res 400 (errBody "No updatable fields"), store) := by
  unfold updateItem
  simp [hid, htr, hty, hempty]

/-- C3 (witness): a body holding only `pk` and `createdAt` is rejected
with `No updatable fields` and no write, whatever those values are. -/
theorem C3_no_updatable_fields_witness :
    updateItem "t" (some "a")
        (some (Json.obj [("pk", Json.str "x"), ("createdAt", Json.str "y")]))
        none []
      = (res 400 (errBody "No updatable fields"), []) :=
  C3_no_updatable_fields_rejected "t" "a"
    (some (Json.obj [("pk", Json.str "x"), ("createdAt", Json.str "y")]))
    none [] (by decide) rfl rfl rfl

/-! ## Claim C10 -/

/-- C10: a JSON array body is accepted by the non-null-object check of
both create and update (arrays are truthy and `typeof` reports
`object`): create then proceeds to the `name` check and fails
`MissingField`, not `InvalidInput`; update on a non-empty array body
treats the element index strings as updatable field names and proceeds
to the store call, here succeeding with 200 and writing the fields `0`
and `1`. -/
theorem C10_array_body_accepted :
    (∀ xs : List Json,
      (!jsTruthy (Json.arr xs) || jsTypeof (Json.arr xs) != "object") = false)
    ∧ (createItem "g" "t1" "t2" (some (Json.arr [Json.str "x"])) none []).1
        = res 400 (errBody "Field \"name\" is required")
    ∧ allowedOf (Json.arr [Json.str "x", Json.str "y"]) = ["0", "1"]
    ∧ updateItem "t2" (some "a")
        (some (Json.arr [Json.str "x", Json.str "y"])) none
        [("a", [("pk", Json.str "a"), ("createdAt", Json.str "t0")])]
      = (res 200 (okItemBody [("pk", Json.str "a"), ("createdAt", Json.str "t0"),
          ("0", Json.str "x"), ("1", Json.str "y"), ("updatedAt", Json.str "t2")]),
         [("a", [("pk", Json.str "a"), ("createdAt", Json.str "t0"),
          ("0", Json.str "x"), ("1", Json.str "y"), ("updatedAt", Json.str "t2")])]) :=
  ⟨fun _ => rfl, rfl, rfl, rfl⟩

/-! ## Resolution of the full maps built by updateItem -/

theorem buildParts_names_snd (body : Json) (allowed : List String) :
    (buildParts body allowed).names.map Prod.snd = allowed :=
  buildPartsFrom_names_snd body 0 allowed

theorem buildParts_names_fst (body : Json) (allowed : List String) :
    (buildParts body allowed).names.map Prod.fst
      = (List.range' 0 allowed.length).map (fun j => "#k" ++ toString j) :=
  buildPartsFrom_names_fst body 0 allowed

theorem buildParts_values_fst (body : Json) (allowed : List String) :
    (buildParts body allowed).values.map Prod.fst
      = (List.range' 0 allowed.length).map (fun j => ":v" ++ toString j) :=
  buildPartsFrom_values_fst body 0 allowed

theorem buildParts_setPairs (body : Json) (allowed : List String) :
    (buildParts body allowed).setPairs
      = (List.range' 0 allowed.length).map
          (fun j => ("#k" ++ toString j, ":v" ++ toString j)) :=
  buildPartsFrom_setPairs body 0 allowed

/-- Every clause `updateItem` sends to the store resolves through its
`ExpressionAttributeNames`/`Values` maps: each loop clause uses the
placeholders minted for its own index, and the appended clause uses
`#updatedAt`/`:updatedNow`. -/
theorem resolveAll_full_isSome (body : Json) (allowed : List String) (now : String) :
    ∃ out, resolveAll
      ((buildParts body allowed).names ++ [("#updatedAt", "updatedAt")])
      ((buildParts body allowed).values ++ [(":updatedNow", Json.str now)])
      ((buildParts body allowed).setPairs ++ [("#updatedAt", ":updatedNow")])
      = some out := by
  apply resolveAll_isSome_of
  intro p hp
  have hnames : ((buildParts body allowed).names
      ++ [("#updatedAt", "updatedAt")]).map Prod.fst
      = (List.range' 0 allowed.length).map (fun j => "#k" ++ toString j)
        ++ ["#updatedAt"] := by
    rw [List.map_append, buildParts_names_fst]
    rfl
  have hvalues : ((buildParts body allowed).values
      ++ [(":updatedNow", Json.str now)]).map Prod.fst
      = (List.range' 0 allowed.length).map (fun j => ":v" ++ toString j)
        ++ [":updatedNow"] := by
    rw [List.map_append, buildParts_values_fst]
    rfl
  rw [buildParts_setPairs] at hp
  rcases List.mem_append.mp hp with hin | hone
  · obtain ⟨j, hj, rfl⟩ := List.mem_map.mp hin
    constructor
    · apply alookup_isSome_of_mem
      rw [hnames]
      exact List.mem_append_left _ (List.mem_map_of_mem _ hj)
    · apply alookup_isSome_of_mem
      rw [hvalues]
      exact List.mem_append_left _ (List.mem_map_of_mem _ hj)
  · have hpe : p = ("#updatedAt", ":updatedNow") := by simpa using hone
    subst hpe
    constructor
    · apply alookup_isSome_of_mem
      rw [hnames]
      exact List.mem_append_right _ (by simp)
    · apply alookup_isSome_of_mem
      rw [hvalues]
      exact List.mem_append_right _ (by simp)

/-- The two immutable attribute names never enter the allowed set. -/
theorem not_mem_allowedOf_pk (body : Json) : "pk" ∉ allowedOf body := by
  intro h
  have := List.of_mem_filter h
  simp at this

theorem not_mem_allowedOf_createdAt (body : Json) :
    "createdAt" ∉ allowedOf body := by
  intro h
  have := List.of_mem_filter h
  simp at this

/-! ## Claim C4 -/

/-- C4: for update and delete with a present path identifier, a failing
existence precondition (no record under the key, fault-free store)
produces the 404 with the conditional-failure message, while any
injected store fault whose code is not the conditional-check code
produces a 500 carrying the fault message verbatim. -/
theorem C4_conditional_failure_maps_to_404 (now id : String) (body : Json)
    (e : DdbError) (store : Store)
    (hid : id ≠ "")
    (htr : jsTruthy body = true) (hty : jsTypeof body = "object")
    (hallow : allowedOf body ≠ [])
    (habsent : alookup store id = none)
    (hcode : e.code ≠ "ConditionalCheckFailedException") :
    (updateItem now (some id) (some body) none store).1
        = res 404 (errBody condFailErr.message)
    ∧ (updateItem now (some id) (some body) (some e) store).1
        = res 500 (errBody e.message)
    ∧ (deleteItem (some id) none store).1
        = res 404 (errBody condFailErr.message)
    ∧ (deleteItem (some id) (some e) store).1
        = res 500 (errBody e.message) := by
  have hlen : ¬ (allowedOf body).length = 0 := by
    simpa [List.length_eq_zero] using hallow
  refine ⟨?_, ?_, ?_, ?_⟩
  · obtain ⟨out, hout⟩ := resolveAll_full_isSome body (allowedOf body) now
    unfold updateItem
    simp [hid, htr, hty, hlen, ddbUpdate, hout, habsent, condFailErr]
  · unfold updateItem
    simp [hid, htr, hty, hlen, ddbUpdate, hcode]
  · unfold deleteItem
    simp [hid, ddbDelete, habsent, condFailErr]
  · unfold deleteItem
    simp [hid, ddbDelete, hcode]

/-- C4 (witness). -/
theorem C4_conditional_failure_witness :
    (updateItem "t" (some "a") (some (Json.obj [("foo", Json.str "bar")])) none []).1
        = res 404 (errBody condFailErr.message)
    ∧ (updateItem "t" (some "a") (some (Json.obj [("foo", Json.str "bar")]))
        (some ⟨"ProvisionedThroughputExceededException", "Throughput exceeded"⟩) []).1
        = res 500 (errBody "Throughput exceeded")
    ∧ (deleteItem (some "a") none []).1 = res 404 (errBody condFailErr.message)
    ∧ (deleteItem (some "a")
        (some ⟨"ProvisionedThroughputExceededException", "Throughput exceeded"⟩) []).1
        = res 500 (errBody "Throughput exceeded") :=
  C4_conditional_failure_maps_to_404 "t" "a" (Json.obj [("foo", Json.str "bar")])
    ⟨"ProvisionedThroughputExceededException", "Throughput exceeded"⟩ []
    (by decide) rfl rfl (by decide) rfl (by decide)

/-! ## Claim C2 -/

theorem buildParts_congr (body body' : Json) (l : List String)
    (h : ∀ k ∈ l, getProp body k = getProp body' k) :
    buildParts body l = buildParts body' l :=
  buildPartsFrom_congr body body' 0 l h

/-- No clause resolved from the maps built by `updateItem` assigns `pk`
or `createdAt`: every resolved attribute name is an allowed body key or
`updatedAt`, and the allowed set filters the two immutable names out. -/
theorem resolved_keys_not_immutable (body : Json) (now : String)
    (out : List (String × Json))
    (hout : resolveAll
        ((buildParts body (allowedOf body)).names ++ [("#updatedAt", "updatedAt")])
        ((buildParts body (allowedOf body)).values ++ [(":updatedNow", Json.str now)])
        ((buildParts body (allowedOf body)).setPairs ++ [("#updatedAt", ":updatedNow")])
        = some out) :
    ∀ p ∈ out, p.1 ≠ "pk" ∧ p.1 ≠ "createdAt" := by
  intro p hp
  have hmem := resolveAll_mem_fst hout p hp
  rw [List.map_append, buildParts_names_snd] at hmem
  rcases List.mem_append.mp hmem with h1 | h2
  · exact ⟨fun he => not_mem_allowedOf_pk body (he ▸ h1),
      fun he => not_mem_allowedOf_createdAt body (he ▸ h1)⟩
  · have hpe : p.1 = "updatedAt" := by simpa using h2
    rw [hpe]
    exact ⟨by decide, by decide⟩

/-- The store after an update invocation is either untouched or changed
by exactly one write at the path identifier, applying the resolved
clauses to the record previously stored there. -/
theorem updateItem_store_unchanged_or_single_write (now id : String)
    (body : Json) (fault : Option DdbError) (store : Store) :
    (updateItem now (some id) (some body) fault store).2 = store
    ∨ ∃ item0 out,
        alookup store id = some item0
        ∧ resolveAll
            ((buildParts body (allowedOf body)).names ++ [("#updatedAt", "updatedAt")])
            ((buildParts body (allowedOf body)).values ++ [(":updatedNow", Json.str now)])
            ((buildParts body (allowedOf body)).setPairs ++ [("#updatedAt", ":updatedNow")])
          = some out
        ∧ (updateItem now (some id) (some body) fault store).2
          = aset store id (objAssign item0 out) := by
  by_cases hid : id = ""
  · left; simp [updateItem, hid]
  · by_cases hb1 : (!jsTruthy body || jsTypeof body != "object") = true
    · left; simp [updateItem, hid, hb1]
    · by_cases hal : (allowedOf body).length = 0
      · left; simp [updateItem, hid, hb1, hal]
      · cases fault with
        | some e => left; simp [updateItem, hid, hb1, hal, ddbUpdate]
        | none =>
          obtain ⟨out, hout⟩ := resolveAll_full_isSome body (allowedOf body) now
          cases hstore : alookup store id with
          | none => left; simp [updateItem, hid, hb1, hal, ddbUpdate, hout, hstore]
          | some item0 =>
            right
            exact ⟨item0, out, rfl, hout, by
              simp [updateItem, hid, hb1, hal, ddbUpdate, hout, hstore]⟩

/-- C2: on an update of an existing item, whatever the body and the
store outcome, the record stored under the identifier keeps its `pk` and
`createdAt` bindings; moreover the whole invocation (response and store)
is unchanged when the `pk` and `createdAt` entries are deleted from an
object body beforehand — the two keys are silently dropped and never
themselves produce an error. -/
theorem C2_update_preserves_immutable_fields (now id : String) (body : Json)
    (fault : Option DdbError) (store : Store) (item : Item)
    (hmem : alookup store id = some item) :
    (∀ item2 : Item,
        alookup (updateItem now (some id) (some body) fault store).2 id = some item2 →
        alookup item2 "pk" = alookup item "pk"
        ∧ alookup item2 "createdAt" = alookup item "createdAt")
    ∧ (∀ kvs : List (String × Json), body = Json.obj kvs →
        updateItem now (some id) (some body) fault store
          = updateItem now (some id)
              (some (Json.obj (kvs.filter
                (fun q => !(["pk", "createdAt"].contains q.1)))))
              fault store) := by
  constructor
  · intro item2 h2
    rcases updateItem_store_unchanged_or_single_write now id body fault store with
      hsame | ⟨item0, out, hstore, hout, heq⟩
    · rw [hsame, hmem] at h2
      injection h2 with h2
      subst h2
      exact ⟨rfl, rfl⟩
    · rw [heq, alookup_aset_self] at h2
      injection h2 with h2
      subst h2
      have hitem0 : item0 = item := by
        have := hstore.symm.trans hmem
        injection this
      subst hitem0
      have hsafe := resolved_keys_not_immutable body now out hout
      exact ⟨objAssign_alookup_of_forall_ne out item0 "pk"
          (fun p hp => (hsafe p hp).1),
        objAssign_alookup_of_forall_ne out item0 "createdAt"
          (fun p hp => (hsafe p hp).2)⟩
  · rintro kvs rfl
    have hkeys : allowedOf (Json.obj (kvs.filter
        (fun q => !(["pk", "createdAt"].contains q.1))))
        = allowedOf (Json.obj kvs) := by
      show ((kvs.filter (fun q => !(["pk", "createdAt"].contains q.1))).map
          Prod.fst).filter (fun k => !(["pk", "createdAt"].contains k))
        = (kvs.map Prod.fst).filter (fun k => !(["pk", "createdAt"].contains k))
      rw [map_fst_filter kvs (fun k => !(["pk", "createdAt"].contains k))]
      simp [List.filter_filter]
    have hgp : ∀ k ∈ allowedOf (Json.obj kvs),
        getProp (Json.obj (kvs.filter
          (fun q => !(["pk", "createdAt"].contains q.1)))) k
        = getProp (Json.obj kvs) k := by
      intro k hk
      have hpk := List.of_mem_filter hk
      show alookup (kvs.filter (fun q => !(["pk", "createdAt"].contains q.1))) k
        = alookup kvs k
      exact alookup_filter kvs (fun k2 => !(["pk", "createdAt"].contains k2)) k hpk
    have hbp : buildParts (Json.obj (kvs.filter
        (fun q => !(["pk", "createdAt"].contains q.1)))) (allowedOf (Json.obj kvs))
        = buildParts (Json.obj kvs) (allowedOf (Json.obj kvs)) :=
      buildParts_congr _ _ _ hgp
    have hue : updateExpressionFor (Json.obj (kvs.filter
        (fun q => !(["pk", "createdAt"].contains q.1)))) (allowedOf (Json.obj kvs))
        = updateExpressionFor (Json.obj kvs) (allowedOf (Json.obj kvs)) := by
      unfold updateExpressionFor
      rw [hbp]
    simp only [updateItem, Option.getD_some, jsTruthy, jsTypeof]
    rw [hkeys, hbp, hue]

/-- C2 (witness): updating an existing record with a body that also
tries to set `pk` and `createdAt` keeps both fields, and the invocation
equals the one whose body has the two keys deleted. -/
theorem C2_update_preserves_witness :
    alookup [("pk", Json.str "a"), ("name", Json.str "n"),
        ("createdAt", Json.str "t0"), ("updatedAt", Json.str "t2"),
        ("foo", Json.str "bar")] "pk"
      = alookup [("pk", Json.str "a"), ("name", Json.str "n"),
        ("createdAt", Json.str "t0"), ("updatedAt", Json.str "t0")] "pk"
    ∧ alookup [("pk", Json.str "a"), ("name", Json.str "n"),
        ("createdAt", Json.str "t0"), ("updatedAt", Json.str "t2"),
        ("foo", Json.str "bar")] "createdAt"
      = alookup [("pk", Json.str "a"), ("name", Json.str "n"),
        ("createdAt", Json.str "t0"), ("updatedAt", Json.str "t0")] "createdAt"
    ∧ updateItem "t2" (some "a")
        (some (Json.obj [("foo", Json.str "bar"), ("pk", Json.str "zz"),
          ("createdAt", Json.str "cc")])) none
        [("a", [("pk", Json.str "a"), ("name", Json.str "n"),
          ("createdAt", Json.str "t0"), ("updatedAt", Json.str "t0")])]
      = updateItem "t2" (some "a") (some (Json.obj [("foo", Json.str "bar")])) none
        [("a", [("pk", Json.str "a"), ("name", Json.str "n"),
          ("createdAt", Json.str "t0"), ("updatedAt", Json.str "t0")])] := by
  have h := C2_update_preserves_immutable_fields "t2" "a"
    (Json.obj [("foo", Json.str "bar"), ("pk", Json.str "zz"),
      ("createdAt", Json.str "cc")]) none
    [("a", [("pk", Json.str "a"), ("name", Json.str "n"),
      ("createdAt", Json.str "t0"), ("updatedAt", Json.str "t0")])]
    [("pk", Json.str "a"), ("name", Json.str "n"),
      ("createdAt", Json.str "t0"), ("updatedAt", Json.str "t0")] rfl
  obtain ⟨hpk, hca⟩ := h.1
    [("pk", Json.str "a"), ("name", Json.str "n"), ("createdAt", Json.str "t0"),
      ("updatedAt", Json.str "t2"), ("foo", Json.str "bar")] rfl
  exact ⟨hpk, hca, h.2 [("foo", Json.str "bar"), ("pk", Json.str "zz"),
    ("createdAt", Json.str "cc")] rfl⟩

/-! ## Claim C8 -/

/-- C8: caller-supplied field names enter the store call only as data:
the names map holds exactly the allowed keys, each as the value of a
generated `#k<i>` placeholder; the clause list — and with it the
rendered update-expression string — is a function of the number of
allowed keys alone, so no raw key text reaches the expression whatever
characters the keys contain. -/
theorem C8_field_names_as_data (body : Json) (allowed : List String) :
    (buildParts body allowed).names.map Prod.snd = allowed
    ∧ (buildParts body allowed).names.map Prod.fst
        = (List.range allowed.length).map (fun i => "#k" ++ toString i)
    ∧ (buildParts body allowed).setPairs
        = (List.range allowed.length).map
            (fun i => ("#k" ++ toString i, ":v" ++ toString i))
    ∧ (∀ (body2 : Json) (allowed2 : List String),
        allowed2.length = allowed.length →
        updateExpressionFor body2 allowed2 = updateExpressionFor body allowed) := by
  refine ⟨buildParts_names_snd body allowed, ?_, ?_, ?_⟩
  · rw [buildParts_names_fst, List.range_eq_range']
  · rw [buildParts_setPairs, List.range_eq_range']
  · intro body2 allowed2 hlen
    unfold updateExpressionFor
    rw [buildParts_setPairs, buildParts_setPairs, hlen]

/-- C8 (witness): a key containing expression syntax produces the same
update-expression string as a plain key. -/
theorem C8_field_names_witness :
    updateExpressionFor (Json.obj [("a = b, #k0", Json.str "x")]) ["a = b, #k0"]
      = updateExpressionFor (Json.obj [("foo", Json.str "y")]) ["foo"] :=
  (C8_field_names_as_data (Json.obj [("foo", Json.str "y")]) ["foo"]).2.2.2
    (Json.obj [("a = b, #k0", Json.str "x")]) ["a = b, #k0"] rfl

/-! ## Response shape of every route -/

theorem createItem_res_shape (genId now1 now2 : String) (eventBody : Option Json)
    (fault : Option DdbError) (store : Store) :
    (createItem genId now1 now2 eventBody fault store).1.headers = some corsHeaders
    ∧ ((createItem genId now1 now2 eventBody fault store).1.statusCode < 400
       ∨ ∃ msg, (createItem genId now1 now2 eventBody fault store).1.body = errBody msg) := by
  unfold createItem
  try dsimp only
  repeat' split
  all_goals refine ⟨rfl, ?_⟩
  all_goals first
    | (left; simp [res]; done)
    | (right; exact ⟨_, rfl⟩)

theorem getItem_res_shape (pathId : Option String) (fault : Option DdbError)
    (store : Store) :
    (getItem pathId fault store).1.headers = some corsHeaders
    ∧ ((getItem pathId fault store).1.statusCode < 400
       ∨ ∃ msg, (getItem pathId fault store).1.body = errBody msg) := by
  unfold getItem
  try dsimp only
  repeat' split
  all_goals refine ⟨rfl, ?_⟩
  all_goals first
    | (left; simp [res]; done)
    | (right; exact ⟨_, rfl⟩)

theorem updateItem_res_shape (now : String) (pathId : Option String)
    (eventBody : Option Json) (fault : Option DdbError) (store : Store) :
    (updateItem now pathId eventBody fault store).1.headers = some corsHeaders
    ∧ ((updateItem now pathId eventBody fault store).1.statusCode < 400
       ∨ ∃ msg, (updateItem now pathId eventBody fault store).1.body = errBody msg) := by
  unfold updateItem
  try dsimp only
  repeat' split
  all_goals refine ⟨rfl, ?_⟩
  all_goals first
    | (left; simp [res]; done)
    | (right; exact ⟨_, rfl⟩)

theorem deleteItem_res_shape (pathId : Option String) (fault : Option DdbError)
    (store : Store) :
    (deleteItem pathId fault store).1.headers = some corsHeaders
    ∧ ((deleteItem pathId fault store).1.statusCode < 400
       ∨ ∃ msg, (deleteItem pathId fault store).1.body = errBody msg) := by
  unfold deleteItem
  try dsimp only
  repeat' split
  all_goals refine ⟨rfl, ?_⟩
  all_goals first
    | (left; simp [res]; done)
    | (right; exact ⟨_, rfl⟩)

theorem listItems_res_shape (fault : Option DdbError) (store : Store) :
    (listItems fault store).1.headers = some corsHeaders
    ∧ ((listItems fault store).1.statusCode < 400
       ∨ ∃ msg, (listItems fault store).1.body = errBody msg) := by
  unfold listItems
  try dsimp only
  repeat' split
  all_goals refine ⟨rfl, ?_⟩
  all_goals first
    | (left; simp [res]; done)
    | (right; exact ⟨_, rfl⟩)

theorem hello_res_shape (nowMs : Int) (fault : Option DdbError) (store : Store) :
    (hello nowMs fault store).1.headers = none
    ∧ ((hello nowMs fault store).1.statusCode < 400
       ∨ ∃ msg, (hello nowMs fault store).1.body = errBody msg) := by
  unfold hello
  try dsimp only
  repeat' split
  all_goals refine ⟨rfl, ?_⟩
  all_goals first
    | (left; simp [res]; done)
    | (right; exact ⟨_, rfl⟩)

/-! ## Claim C6 -/

/-- C6 (counterexample): the claim extends the fixed header set to every
response of the connectivity-check routine, but the response literals of
that routine carry no headers field at all, so even its success response
lacks the fixed header set. -/
theorem C6_hello_counterexample :
    (hello 0 none []).1.headers ≠ some corsHeaders
    ∧ (hello 0 none []).1.statusCode = 200 := by
  refine ⟨fun h => ?_, rfl⟩
  rw [show (hello 0 none []).1.headers = none from rfl] at h
  simp at h

/-- C6 (amended): every response of the five item-service routes carries
the fixed CORS header set, and every error response (status 400 or
above) of all six routines — the connectivity check included — has the
body `ok: false, error: message`; the connectivity-check responses
however carry no headers at all. -/
theorem C6_headers_and_error_shape :
    (∀ genId now1 now2 eventBody fault store,
      (createItem genId now1 now2 eventBody fault store).1.headers = some corsHeaders
      ∧ (400 ≤ (createItem genId now1 now2 eventBody fault store).1.statusCode →
          ∃ msg, (createItem genId now1 now2 eventBody fault store).1.body = errBody msg))
    ∧ (∀ pathId fault store,
      (getItem pathId fault store).1.headers = some corsHeaders
      ∧ (400 ≤ (getItem pathId fault store).1.statusCode →
          ∃ msg, (getItem pathId fault store).1.body = errBody msg))
    ∧ (∀ now pathId eventBody fault store,
      (updateItem now pathId eventBody fault store).1.headers = some corsHeaders
      ∧ (400 ≤ (updateItem now pathId eventBody fault store).1.statusCode →
          ∃ msg, (updateItem now pathId eventBody fault store).1.body = errBody msg))
    ∧ (∀ pathId fault store,
      (deleteItem pathId fault store).1.headers = some corsHeaders
      ∧ (400 ≤ (deleteItem pathId fault store).1.statusCode →
          ∃ msg, (deleteItem pathId fault store).1.body = errBody msg))
    ∧ (∀ fault store,
      (listItems fault store).1.headers = some corsHeaders
      ∧ (400 ≤ (listItems fault store).1.statusCode →
          ∃ msg, (listItems fault store).1.body = errBody msg))
    ∧ (∀ nowMs fault store,
      (hello nowMs fault store).1.headers = none
      ∧ (400 ≤ (hello nowMs fault store).1.statusCode →
          ∃ msg, (hello nowMs fault store).1.body = errBody msg)) := by
  refine ⟨fun genId now1 now2 eventBody fault store => ?_,
    fun pathId fault store => ?_, fun now pathId eventBody fault store => ?_,
    fun pathId fault store => ?_, fun fault store => ?_,
    fun nowMs fault store => ?_⟩
  · obtain ⟨h1, h2⟩ := createItem_res_shape genId now1 now2 eventBody fault store
    exact ⟨h1, fun hge => h2.resolve_left (by omega)⟩
  · obtain ⟨h1, h2⟩ := getItem_res_shape pathId fault store
    exact ⟨h1, fun hge => h2.resolve_left (by omega)⟩
  · obtain ⟨h1, h2⟩ := updateItem_res_shape now pathId eventBody fault store
    exact ⟨h1, fun hge => h2.resolve_left (by omega)⟩
  · obtain ⟨h1, h2⟩ := deleteItem_res_shape pathId fault store
    exact ⟨h1, fun hge => h2.resolve_left (by omega)⟩
  · obtain ⟨h1, h2⟩ := listItems_res_shape fault store
    exact ⟨h1, fun hge => h2.resolve_left (by omega)⟩
  · obtain ⟨h1, h2⟩ := hello_res_shape nowMs fault store
    exact ⟨h1, fun hge => h2.resolve_left (by omega)⟩

/-- C6 (witness). -/
theorem C6_headers_witness :
    (createItem "g" "t1" "t2" none none []).1.headers = some corsHeaders
    ∧ (∃ msg, (createItem "g" "t1" "t2" none none []).1.body = errBody msg)
    ∧ (hello 0 none []).1.headers = none
    ∧ (∃ msg, (hello 0 (some ⟨"X", "boom"⟩) []).1.body = errBody msg) :=
  ⟨(C6_headers_and_error_shape.1 "g" "t1" "t2" none none []).1,
   (C6_headers_and_error_shape.1 "g" "t1" "t2" none none []).2 (by decide),
   (C6_headers_and_error_shape.2.2.2.2.2 0 none []).1,
   (C6_headers_and_error_shape.2.2.2.2.2 0 (some ⟨"X", "boom"⟩) []).2 (by decide)⟩
